import Mathlib

/-!
Shallow embedding of the sl-event-viewer chart engine
(src/chart_builder.py, src/chart_builder_5m.py, src/chart_builder_1h.py,
src/chart_builder_1m.py, src/app.py).

Conventions of the embedding:

* Instants are `Int` minutes since an arbitrary epoch; `pd.Timedelta(hours=1)`
  is `60`, `hours=2` is `120`, `hours=6` is `360`, `minutes=15` is `15`,
  `minutes=30` is `30`.
* A raw JSON timestamp field (`dict.get` result) is `RawTs`: the key may be
  missing / null (`RawTs.missing`, Python `None`), may hold an unparsable
  string (`RawTs.invalid`), or a parsable ISO-style string denoting the
  instant `n` (`RawTs.valid n`).
* `pd.to_datetime(value, utc=True, errors="coerce")` on a scalar yields a
  pandas value that is either a real `Timestamp` or the sentinel `NaT`;
  this is `PTs` below.  Crucially `pd.NaT is not None` in Python, and every
  ordered comparison against `NaT` is `False` — both facts are modelled
  exactly, because the window logic depends on them.
* Prices are `ℚ` (the floats involved in the claims stay exact).
* plotly `Figure` objects are replaced by pure result records holding the
  data that decides the claims: the candle slice handed to the candlestick
  trace, the explicit x-axis range, and the marker/line primitives.
-/

namespace SLEV

/-- Raw content of a timestamp field as read from the event JSON:
missing/null, an unparsable string, or a parsable string for instant `n`. -/
inductive RawTs
  | missing
  | invalid
  | valid (n : Int)
deriving DecidableEq, Repr

/-- A pandas scalar datetime value: `NaT` or a concrete UTC instant. -/
inductive PTs
  | nat
  | t (n : Int)
deriving DecidableEq, Repr

/-- chart_builder.py lines 8-16 (identical in the other three builders):
`parse_ts` returns Python `None` for `None` input and otherwise
`pd.to_datetime(value, utc=True, errors="coerce")`, i.e. `NaT` for an
unparsable string and a `Timestamp` for a parsable one. -/
def parse_ts : RawTs → Option PTs
  | .missing => none
  | .invalid => some .nat
  | .valid n => some (.t n)

/-- Python `<` on pandas datetime scalars: any comparison with `NaT` is
`False`. -/
def pyLt : PTs → PTs → Bool
  | .t a, .t b => a < b
  | _, _ => false

/-- Python `>` on pandas datetime scalars: any comparison with `NaT` is
`False`. -/
def pyGt : PTs → PTs → Bool
  | .t a, .t b => a > b
  | _, _ => false

/-- Python builtin `min(a, b)`: keeps `a` unless `b < a`. -/
def pyMin2 (a b : PTs) : PTs := if pyLt b a then b else a

/-- Python builtin `max(a, b)`: keeps `a` unless `b > a`. -/
def pyMax2 (a b : PTs) : PTs := if pyGt b a then b else a

/-- Python builtin `min` over a non-empty list `x :: xs`: the running value
is replaced whenever a later item compares strictly below it. -/
def pyMin (x : PTs) (xs : List PTs) : PTs :=
  xs.foldl (fun acc y => if pyLt y acc then y else acc) x

/-- Python builtin `max` over a non-empty list `x :: xs`. -/
def pyMax (x : PTs) (xs : List PTs) : PTs :=
  xs.foldl (fun acc y => if pyGt y acc then y else acc) x

/-- Subtracting a `pd.Timedelta`: `NaT` propagates. -/
def PTs.sub : PTs → Int → PTs
  | .nat, _ => .nat
  | .t n, d => .t (n - d)

/-- Adding a `pd.Timedelta`: `NaT` propagates. -/
def PTs.add : PTs → Int → PTs
  | .nat, _ => .nat
  | .t n, d => .t (n + d)

/-- pandas elementwise `series >= bound` where the series cell is a real
`Timestamp` (`c`) and the bound may be `NaT` (always `False` then). -/
def tsGe (c : Int) : PTs → Bool
  | .nat => false
  | .t n => n ≤ c

/-- pandas elementwise `series <= bound`. -/
def tsLe (c : Int) : PTs → Bool
  | .nat => false
  | .t n => c ≤ n

/-- `hourly_fvg` sub-record (fields used by the viewer). -/
structure HourlyFvg where
  fvg_hour_id : Option String := none
  start_time : RawTs := .missing
  end_time : RawTs := .missing
  direction : Option String := none
  begin_bound : Option ℚ := none
  end_bound : Option ℚ := none
  touch_ts : RawTs := .missing
  touch_price : Option ℚ := none
  pretouch_window_start : RawTs := .missing
  pretouch_window_end : RawTs := .missing
  posttouch_window_start : RawTs := .missing
  posttouch_window_end : RawTs := .missing
deriving DecidableEq, Repr

/-- One `fvg_5m` entry. -/
structure Fvg5m where
  fvg_5m_id : Nat := 0
  start_time : RawTs := .missing
  begin_bound : Option ℚ := none
  end_bound : Option ℚ := none
  touch_ts : RawTs := .missing
  entry_ts : RawTs := .missing
  index_first_touch : Option Nat := none
  index_valid_close_after_touch : Option Nat := none
deriving DecidableEq, Repr

/-- One `bos_5m` entry. -/
structure Bos5m where
  ts_event : RawTs := .missing
  trigger_close : Option ℚ := none
  bos_direction : Option String := none
deriving DecidableEq, Repr

/-- One `trade_signals` entry. -/
structure TradeSignal where
  signal : Option String := none
  entry_ts : RawTs := .missing
  entry_price : Option ℚ := none
  stop_loss : Option ℚ := none
  take_profit : Option ℚ := none
  exit_signal : Option String := none
  exit_ts : RawTs := .missing
  exit_price : Option ℚ := none
deriving DecidableEq, Repr

/-- The event document (top-level keys the chart engine reads). -/
structure EventRecord where
  event_id : Option String := none
  hourly_fvg : Option HourlyFvg := none
  fvg_5m : List Fvg5m := []
  bos_5m : List Bos5m := []
  trade_signals : List TradeSignal := []
deriving DecidableEq, Repr

/-- Python `event.get("hourly_fvg") or {}`. -/
def hourlyOf (ev : EventRecord) : HourlyFvg := ev.hourly_fvg.getD {}

/-- The raw fields appended (in program order) to `candidates_start` by
`get_time_window` in chart_builder.py lines 41-70: the two window-start
hints, then `start_time`, then per 5m FVG `start_time`/`touch_ts`/`entry_ts`,
then per BOS `ts_event`.  Each field is appended only when `parse_ts` is
not `None` (so `NaT` from an unparsable string is appended too). -/
def startFields (ev : EventRecord) : List RawTs :=
  let hourly := hourlyOf ev
  [hourly.pretouch_window_start, hourly.posttouch_window_start, hourly.start_time]
    ++ ev.fvg_5m.flatMap (fun f => [f.start_time, f.touch_ts, f.entry_ts])
    ++ ev.bos_5m.map (fun b => b.ts_event)

/-- The raw fields appended (in program order) to `candidates_end`:
the two window-end hints, then `start_time`, then the same 5m FVG and BOS
fields (each of which goes to both sets). -/
def endFields (ev : EventRecord) : List RawTs :=
  let hourly := hourlyOf ev
  [hourly.pretouch_window_end, hourly.posttouch_window_end, hourly.start_time]
    ++ ev.fvg_5m.flatMap (fun f => [f.start_time, f.touch_ts, f.entry_ts])
    ++ ev.bos_5m.map (fun b => b.ts_event)

/-- Trade-signal fields scanned only by the chart_builder_5m.py copy
(lines 73-81): per signal, `entry_ts` then `exit_ts`, each appended to both
candidate sets when parseable to not-`None`. -/
def tradeFields (ev : EventRecord) : List RawTs :=
  ev.trade_signals.flatMap (fun s => [s.entry_ts, s.exit_ts])

/-- `candidates_start` of chart_builder.py `get_time_window`. -/
def candidatesStart (ev : EventRecord) : List PTs :=
  (startFields ev).filterMap parse_ts

/-- `candidates_end` of chart_builder.py `get_time_window`. -/
def candidatesEnd (ev : EventRecord) : List PTs :=
  (endFields ev).filterMap parse_ts

/-- `candidates_start` of chart_builder_5m.py `get_time_window`
(same scan plus the trade-signal fix). -/
def candidatesStart5m (ev : EventRecord) : List PTs :=
  (startFields ev ++ tradeFields ev).filterMap parse_ts

/-- `candidates_end` of chart_builder_5m.py `get_time_window`. -/
def candidatesEnd5m (ev : EventRecord) : List PTs :=
  (endFields ev ++ tradeFields ev).filterMap parse_ts

/-- chart_builder.py lines 72-79 (identical in chart_builder_5m.py):
`(None, None)` if either candidate list is empty, otherwise
`(min(candidates_start) - 1h, max(candidates_end) + 1h)` with Python
`min`/`max`. -/
def windowOf (cs ce : List PTs) : Option PTs × Option PTs :=
  match cs, ce with
  | [], _ => (none, none)
  | _, [] => (none, none)
  | s :: ss, e :: es => (some ((pyMin s ss).sub 60), some ((pyMax e es).add 60))

/-- chart_builder.py lines 22-79, `get_time_window`. -/
def get_time_window (ev : EventRecord) : Option PTs × Option PTs :=
  windowOf (candidatesStart ev) (candidatesEnd ev)

/-- chart_builder_5m.py lines 21-90, `get_time_window` (the copy whose scan
also covers `trade_signals[*].entry_ts / exit_ts`). -/
def get_time_window_5m (ev : EventRecord) : Option PTs × Option PTs :=
  windowOf (candidatesStart5m ev) (candidatesEnd5m ev)

/-! ### Spec-side window selector (for the refinement comparison)

The next definitions follow the words of spec §4.2 / claim C1 — not the
Python — so that the code's selector can be compared against them.  Under
the spec an unparsable field is simply "not present", so only `valid`
fields contribute, and `min`/`max` are the ordinary integer ones. -/

/-- Spec reading of a timestamp field: a parsable field contributes its
instant, a missing or unparsable one contributes nothing. -/
def rawVal : RawTs → Option Int
  | .valid n => some n
  | _ => none

/-- Spec §4.2 `starts` set (as an ordered list), scanning the hourly FVG
pretouch/posttouch window starts and start time, every `fvg_5m` entry's
start/touch/entry times, every `bos_5m` entry's `ts_event`, and every trade
signal's entry and exit times. -/
def specStarts5m (ev : EventRecord) : List Int :=
  let hourly := hourlyOf ev
  ([hourly.pretouch_window_start, hourly.posttouch_window_start,
      hourly.start_time].filterMap rawVal)
    ++ ev.fvg_5m.flatMap
        (fun f => [f.start_time, f.touch_ts, f.entry_ts].filterMap rawVal)
    ++ ev.bos_5m.filterMap (fun b => rawVal b.ts_event)
    ++ ev.trade_signals.flatMap
        (fun s => [s.entry_ts, s.exit_ts].filterMap rawVal)

/-- Spec §4.2 `ends` set: the pretouch/posttouch window ends and start time,
then the same zero-width contributors as `specStarts5m`. -/
def specEnds5m (ev : EventRecord) : List Int :=
  let hourly := hourlyOf ev
  ([hourly.pretouch_window_end, hourly.posttouch_window_end,
      hourly.start_time].filterMap rawVal)
    ++ ev.fvg_5m.flatMap
        (fun f => [f.start_time, f.touch_ts, f.entry_ts].filterMap rawVal)
    ++ ev.bos_5m.filterMap (fun b => rawVal b.ts_event)
    ++ ev.trade_signals.flatMap
        (fun s => [s.entry_ts, s.exit_ts].filterMap rawVal)

/-- Spec `starts` without the trade-signal contribution (what the
chart_builder.py copy actually scans). -/
def specStartsBase (ev : EventRecord) : List Int :=
  let hourly := hourlyOf ev
  ([hourly.pretouch_window_start, hourly.posttouch_window_start,
      hourly.start_time].filterMap rawVal)
    ++ ev.fvg_5m.flatMap
        (fun f => [f.start_time, f.touch_ts, f.entry_ts].filterMap rawVal)
    ++ ev.bos_5m.filterMap (fun b => rawVal b.ts_event)

/-- Spec `ends` without the trade-signal contribution. -/
def specEndsBase (ev : EventRecord) : List Int :=
  let hourly := hourlyOf ev
  ([hourly.pretouch_window_end, hourly.posttouch_window_end,
      hourly.start_time].filterMap rawVal)
    ++ ev.fvg_5m.flatMap
        (fun f => [f.start_time, f.touch_ts, f.entry_ts].filterMap rawVal)
    ++ ev.bos_5m.filterMap (fun b => rawVal b.ts_event)

/-- Spec-side window formula: `(Absent, Absent)` when either set is empty,
else `(min(starts) - 1h, max(ends) + 1h)` with ordinary integer
`min`/`max`. -/
def windowSpecOf (S E : List Int) : Option PTs × Option PTs :=
  match S, E with
  | [], _ => (none, none)
  | _, [] => (none, none)
  | a :: ys, b :: zs =>
      (some (.t (ys.foldl min a - 60)), some (.t (zs.foldl max b + 60)))

/-- Spec §4.2 `selectWindow`, written from the spec's words. -/
def selectWindowSpec5m (ev : EventRecord) : Option PTs × Option PTs :=
  windowSpecOf (specStarts5m ev) (specEnds5m ev)

/-- The same spec selector restricted to the fields the chart_builder.py
copy scans (no trade signals). -/
def selectWindowSpecBase (ev : EventRecord) : Option PTs × Option PTs :=
  windowSpecOf (specStartsBase ev) (specEndsBase ev)

/-- No scanned timestamp field of the chart_builder.py selector holds an
unparsable string. -/
def cleanBase (ev : EventRecord) : Prop :=
  ∀ f ∈ startFields ev ++ endFields ev, f ≠ RawTs.invalid

/-- No scanned timestamp field of the chart_builder_5m.py selector
(trade-signal fields included) holds an unparsable string. -/
def clean5m (ev : EventRecord) : Prop :=
  ∀ f ∈ startFields ev ++ endFields ev ++ tradeFields ev, f ≠ RawTs.invalid

instance (ev : EventRecord) : Decidable (cleanBase ev) := by
  unfold cleanBase; infer_instance

instance (ev : EventRecord) : Decidable (clean5m ev) := by
  unfold clean5m; infer_instance

/-! ### Candle series model

A candle arrives from the JSON as a row whose `ts_event` column holds either
a raw (string) value or an already-converted datetime — `Cell` keeps that
distinction because chart_builder.py converts the column *in place* on the
caller's DataFrame while chart_builder_5m.py copies first.  A cell's
denoted instant is `cellVal`.  (An unparsable candle timestamp would make
`pd.to_datetime` raise in chart_builder/5m/1m, so it is outside this model;
the claims only exercise event-record timestamps.) -/

/-- One `ts_event` column cell: raw string form or converted datetime,
both denoting instant `n`. -/
inductive Cell
  | rawS (n : Int)
  | dt (n : Int)
deriving DecidableEq, Repr

/-- `pd.to_datetime(column, utc=True)` on one cell. -/
def convertCell : Cell → Cell
  | .rawS n => .dt n
  | .dt n => .dt n

/-- The instant a cell denotes. -/
def cellVal : Cell → Int
  | .rawS n => n
  | .dt n => n

/-- An input OHLC row as handed to a builder. -/
structure CandleIn where
  ts_event : Cell
  opn : ℚ
  high : ℚ
  low : ℚ
  close : ℚ
deriving DecidableEq, Repr

/-- An OHLC row after the `ts_event` column has been converted
(the working frame the builders slice). -/
structure CandleC where
  ts_event : Int
  opn : ℚ
  high : ℚ
  low : ℚ
  close : ℚ
deriving DecidableEq, Repr

/-- In-place conversion of a row's `ts_event` cell
(`df["ts_event"] = pd.to_datetime(df["ts_event"], utc=True)`). -/
def convertRow (c : CandleIn) : CandleIn :=
  { c with ts_event := convertCell c.ts_event }

/-- View of an input row as a converted working row. -/
def toC (c : CandleIn) : CandleC :=
  ⟨cellVal c.ts_event, c.opn, c.high, c.low, c.close⟩

/-- `df.sort_values("ts_event")` (stable ascending sort). -/
def sortC (l : List CandleC) : List CandleC :=
  l.mergeSort (fun a b => a.ts_event ≤ b.ts_event)

/-- `df_full`: convert the `ts_event` column of the input frame and sort it
by `ts_event` — the common preparation of all four builders. -/
def prepFrame (df : List CandleIn) : List CandleC :=
  sortC (df.map toC)

/-- pandas `column.min()` over the listed `ts_event` values (the builders
only call it on non-empty frames; the `[]` default is unreachable there). -/
def colMin : List Int → Int
  | [] => 0
  | x :: xs => xs.foldl min x

/-- pandas `column.max()` over the listed `ts_event` values. -/
def colMax : List Int → Int
  | [] => 0
  | x :: xs => xs.foldl max x

/-- The shared slicing idiom of all four builders:
`df = df_full[(df_full.ts_event >= s) & (df_full.ts_event <= e)]` followed
by `if df.empty: df = df_full`. -/
def sliceBetween (dfF : List CandleC) (s e : PTs) : List CandleC :=
  let d := dfF.filter (fun c => tsGe c.ts_event s && tsLe c.ts_event e)
  if d.isEmpty then dfF else d

/-! ### The 5-minute builders (chart_builder.py and chart_builder_5m.py) -/

/-- The chart data a 5-minute builder emits that the claims are about:
the candle slice drawn, and the explicit x-axis range
`fig.update_xaxes(range=[df.ts_event.min(), df.ts_event.max()])`. -/
structure ChartOut where
  slice : List CandleC
  axis_lo : Int
  axis_hi : Int
deriving DecidableEq, Repr

/-- chart_builder.py `build_chart` (lines 85-157, the windowing part).
First component: the emitted chart (`none` is the "no OHLC data"
placeholder figure).  Second component: the observable final content of
the *caller's* DataFrame — line 111 assigns the converted `ts_event`
column in place on the argument, without copying first. -/
def build_chart (df : List CandleIn) (ev : EventRecord) :
    Option ChartOut × List CandleIn :=
  match df with
  | [] => (none, [])
  | _ :: _ =>
    let df1 := df.map convertRow
    let df_full := sortC (df1.map toC)
    let tsVals := df_full.map (fun c => c.ts_event)
    let data_min := colMin tsVals
    let data_max := colMax tsVals
    let se : PTs × PTs :=
      match get_time_window ev with
      | (some s, some e) =>
          if pyLt e (.t data_min) || pyGt s (.t data_max) then
            (.t data_min, .t data_max)
          else (s, e)
      | _ => (.t data_min, .t data_max)
    let start_ts : PTs :=
      match parse_ts (hourlyOf ev).pretouch_window_start with
      | some p => pyMax2 p (.t data_min)
      | none => se.1
    let sl := sliceBetween df_full start_ts se.2
    (some ⟨sl, colMin (sl.map (fun c => c.ts_event)),
           colMax (sl.map (fun c => c.ts_event))⟩, df1)

/-- chart_builder_5m.py `build_chart` (lines 96-174, the windowing part).
It copies the frame before converting (line 121), so the second component
— the caller's frame — is returned untouched; and it additionally clamps
both window ends into `[data_min, data_max]` (lines 145-146). -/
def build_chart_5m (df : List CandleIn) (ev : EventRecord) :
    Option ChartOut × List CandleIn :=
  match df with
  | [] => (none, [])
  | _ :: _ =>
    let df_full := prepFrame df
    let tsVals := df_full.map (fun c => c.ts_event)
    let data_min := colMin tsVals
    let data_max := colMax tsVals
    let se : PTs × PTs :=
      match get_time_window_5m ev with
      | (some s, some e) =>
          if pyLt e (.t data_min) || pyGt s (.t data_max) then
            (.t data_min, .t data_max)
          else (s, e)
      | _ => (.t data_min, .t data_max)
    let start1 : PTs :=
      match parse_ts (hourlyOf ev).pretouch_window_start with
      | some p => pyMax2 p (.t data_min)
      | none => se.1
    let start_ts := pyMax2 start1 (.t data_min)
    let end_ts := pyMin2 se.2 (.t data_max)
    let sl := sliceBetween df_full start_ts end_ts
    (some ⟨sl, colMin (sl.map (fun c => c.ts_event)),
           colMax (sl.map (fun c => c.ts_event))⟩, df)

/-! ### The hourly builder (chart_builder_1h.py) -/

/-- Python `label or "default"` on an optional string (empty string is
falsy). -/
def orLabel (s : Option String) (d : String) : String :=
  match s with
  | some v => if v = "" then d else v
  | none => d

/-- chart_builder_1h.py `_get_trade` / chart_builder_1m.py `_get_trade`:
`trade[0] if trade else None`. -/
def get_trade (ev : EventRecord) : Option TradeSignal :=
  ev.trade_signals.head?

/-- chart_builder_1h.py lines 159-173: x-axis candidates are the sliced
frame's min and max plus the raw entry/exit timestamps when present, and
the axis range is `[min(cands) - 30min, max(cands) + 30min]` — deliberately
not clamped to the data span. -/
def axis1h (sl : List CandleC) (entryT exitT : Option PTs) : PTs × PTs :=
  let a := PTs.t (colMin (sl.map (fun c => c.ts_event)))
  let b := PTs.t (colMax (sl.map (fun c => c.ts_event)))
  let rest := b :: (entryT.toList ++ exitT.toList)
  ((pyMin a rest).sub 30, (pyMax a rest).add 30)

/-- The hourly figure content the claims are about. -/
structure Chart1hOut where
  slice : List CandleC
  band : Option (ℚ × ℚ)
  entry_line : Option (PTs × String)
  entry_marker : Option (PTs × ℚ)
  exit_line : Option (PTs × String)
  exit_marker : Option (PTs × ℚ)
  axis_lo : PTs
  axis_hi : PTs
  eid : Option String
deriving DecidableEq, Repr

/-- Body of chart_builder_1h.py `build_chart_1h` after the two placeholder
guards; it reads nothing of the event but the first trade signal, the
hourly FVG record and the event id, which are therefore its parameters. -/
def build1hCore (df : List CandleIn) (sig : TradeSignal) (hourly : HourlyFvg)
    (eid : Option String) : Option Chart1hOut :=
  let entry_ts := parse_ts sig.entry_ts
  let exit_ts := parse_ts sig.exit_ts
  let h_start := parse_ts hourly.start_time
  let df_full := prepFrame df
  if df_full.isEmpty then none
  else
    let tsVals := df_full.map (fun c => c.ts_event)
    let data_min := colMin tsVals
    let data_max := colMax tsVals
    let start_ts := pyMax2 (h_start.getD (.t data_min)) (.t data_min)
    let end_ts : PTs :=
      match exit_ts with
      | some x => x.add 120
      | none =>
        match entry_ts with
        | some e => e.add 360
        | none => .t data_max
    let sl := sliceBetween df_full start_ts (pyMin2 end_ts (.t data_max))
    let band : Option (ℚ × ℚ) :=
      match hourly.begin_bound, hourly.end_bound with
      | some lo, some hi =>
          if sl.isEmpty then none else some (min lo hi, max lo hi)
      | _, _ => none
    let entry_line := entry_ts.map (fun e => (e, orLabel sig.signal "entry"))
    let entry_marker : Option (PTs × ℚ) :=
      match entry_ts, sig.entry_price with
      | some e, some p => some (e, p)
      | _, _ => none
    let exit_line := exit_ts.map (fun x => (x, orLabel sig.exit_signal "exit"))
    let exit_marker : Option (PTs × ℚ) :=
      match exit_ts, sig.exit_price with
      | some x, some p => some (x, p)
      | _, _ => none
    let ax := axis1h sl entry_ts exit_ts
    some ⟨sl, band, entry_line, entry_marker, exit_line, exit_marker,
          ax.1, ax.2, eid⟩

/-- chart_builder_1h.py `build_chart_1h` (lines 49-185): "no OHLC data"
placeholder on an empty frame, "no trade_signals" placeholder when
`_get_trade` yields nothing, otherwise the windowed chart. -/
def build_chart_1h (df : List CandleIn) (ev : EventRecord) :
    Option Chart1hOut :=
  match df with
  | [] => none
  | _ :: _ =>
    match get_trade ev with
    | none => none
    | some sig => build1hCore df sig (hourlyOf ev) ev.event_id

/-! ### The 1-minute builder (chart_builder_1m.py) -/

/-- The 1-minute figure content the claims are about. -/
structure Chart1mOut where
  slice : List CandleC
  axis_lo : Int
  axis_hi : Int
  entry_line : Option (PTs × String)
  entry_marker : Option (PTs × ℚ × String)
  sl_line : Option ℚ
  tp_line : Option ℚ
  exit_line : Option (PTs × String)
  exit_marker : Option (PTs × ℚ × String)
  eid : Option String
deriving DecidableEq, Repr

/-- Body of chart_builder_1m.py `build_chart_1m` after the two placeholder
guards (lines 62-158); parameterized, like `build1hCore`, on exactly the
event data it reads. -/
def build1mCore (df : List CandleIn) (sig : TradeSignal)
    (eid : Option String) : Chart1mOut :=
  let entry_ts := parse_ts sig.entry_ts
  let exit_ts := parse_ts sig.exit_ts
  let df_full := prepFrame df
  let tsVals := df_full.map (fun c => c.ts_event)
  let data_min := colMin tsVals
  let data_max := colMax tsVals
  let start_ts : PTs :=
    match entry_ts with
    | none => .t data_min
    | some e => pyMax2 (e.sub 15) (.t data_min)
  let end_ts : PTs :=
    match exit_ts with
    | none =>
      match entry_ts with
      | some e => pyMin2 (e.add 120) (.t data_max)
      | none => .t data_max
    | some x => pyMin2 (x.add 15) (.t data_max)
  let sl := sliceBetween df_full start_ts end_ts
  let entry_line := entry_ts.map (fun e => (e, orLabel sig.signal "entry"))
  let entry_marker : Option (PTs × ℚ × String) :=
    match entry_ts, sig.entry_price with
    | some e, some p => some (e, p, sig.signal.getD "")
    | _, _ => none
  let exit_line := exit_ts.map (fun x => (x, orLabel sig.exit_signal "exit"))
  let exit_marker : Option (PTs × ℚ × String) :=
    match exit_ts, sig.exit_price with
    | some x, some p => some (x, p, sig.exit_signal.getD "")
    | _, _ => none
  ⟨sl, colMin (sl.map (fun c => c.ts_event)),
   colMax (sl.map (fun c => c.ts_event)), entry_line, entry_marker,
   sig.stop_loss, sig.take_profit, exit_line, exit_marker, eid⟩

/-- chart_builder_1m.py `build_chart_1m` (lines 50-158). -/
def build_chart_1m (df : List CandleIn) (ev : EventRecord) :
    Option Chart1mOut :=
  match df with
  | [] => none
  | _ :: _ =>
    match get_trade ev with
    | none => none
    | some sig => some (build1mCore df sig ev.event_id)

/-! ### Trade metric calculator (app.py lines 122-150) -/

/-- app.py derived metrics `(R, pnl_points, pnl_R)`.  The source initializes
all three to `None`, computes them only inside the
`entry_price is not None and stop_loss is not None and exit_price is not
None` block, compares the signal via `sig.get("signal", "N/A")`, and guards
the division with `if R and pnl_points is not None` (so a zero risk unit —
falsy float — skips it). -/
def computeMetrics (sig : TradeSignal) : Option ℚ × Option ℚ × Option ℚ :=
  match sig.entry_price, sig.stop_loss, sig.exit_price with
  | some ep, some sl, some xp =>
    let R : ℚ := |ep - sl|
    let pnl_points : Option ℚ :=
      if sig.signal.getD "N/A" = "buy_long" then some (xp - ep)
      else if sig.signal.getD "N/A" = "sell_short" then some (ep - xp)
      else none
    let pnl_R : Option ℚ :=
      if R ≠ 0 then pnl_points.map (fun p => p / R) else none
    (some R, pnl_points, pnl_R)
  | _, _, _ => (none, none, none)

/-! ### Claim-side abbreviations and concrete example records -/

/-- The minimum candle timestamp of an input series (`dataMin`). -/
def dataMinIn (df : List CandleIn) : Int :=
  colMin (df.map (fun c => cellVal c.ts_event))

/-- The maximum candle timestamp of an input series (`dataMax`). -/
def dataMaxIn (df : List CandleIn) : Int :=
  colMax (df.map (fun c => cellVal c.ts_event))

/-- Whether a 5-minute-view result renders a non-empty candle slice
(a placeholder figure renders no slice at all and passes vacuously). -/
def renderedNonempty (o : Option ChartOut) : Bool :=
  match o with
  | none => true
  | some out => !out.slice.isEmpty

/-- Whether an hourly-view result renders a non-empty candle slice. -/
def renderedNonempty1h (o : Option Chart1hOut) : Bool :=
  match o with
  | none => true
  | some out => !out.slice.isEmpty

/-- Whether a 1-minute-view result renders a non-empty candle slice. -/
def renderedNonempty1m (o : Option Chart1mOut) : Bool :=
  match o with
  | none => true
  | some out => !out.slice.isEmpty

/-- A trade signal entered at minute 600 with no exit. -/
def sigTrade : TradeSignal :=
  { entry_ts := RawTs.valid 600, signal := some "buy_long" }

/-- An event holding nothing but one trade signal entered at minute 600. -/
def evTradeOnly : EventRecord :=
  { trade_signals := [sigTrade] }

/-- An event whose hourly pretouch window start is an unparsable string
while one 5m FVG starts at minute 600. -/
def evUnparsable : EventRecord :=
  { hourly_fvg := some { pretouch_window_start := RawTs.invalid },
    fvg_5m := [{ start_time := RawTs.valid 600 }] }

/-- An event carrying only one-sided hourly window hints: a pretouch window
start at minute 600 and a pretouch window end at minute 0. -/
def evOneSided : EventRecord :=
  { hourly_fvg := some { pretouch_window_start := RawTs.valid 600,
                         pretouch_window_end := RawTs.valid 0 } }

/-- An event whose only timestamp is the hourly FVG start time, minute
600 (it contributes to both candidate sets). -/
def evStartOnly : EventRecord :=
  { hourly_fvg := some { start_time := RawTs.valid 600 } }

/-- A still-open long trade: entry and stop present, no exit price. -/
def sigOpen : TradeSignal :=
  { signal := some "buy_long", entry_price := some 100,
    stop_loss := some 95 }

/-- The closed long trade of spec example E2E-2. -/
def sigClosed : TradeSignal :=
  { signal := some "buy_long", entry_price := some 100,
    stop_loss := some 95, exit_price := some 108 }

/-- The zero-risk trade of spec property P6: entry equals stop. -/
def sigZeroRisk : TradeSignal :=
  { signal := some "buy_long", entry_price := some 100,
    stop_loss := some 100, exit_price := some 110 }

/-- A one-row frame whose `ts_event` column still holds its raw string. -/
def dfRaw : List CandleIn := [⟨Cell.rawS 0, 1, 1, 1, 1⟩]

/-- A two-row frame whose `ts_event` column is already datetime. -/
def dfDt : List CandleIn := [⟨Cell.dt 0, 1, 1, 1, 1⟩, ⟨Cell.dt 300, 2, 2, 2, 2⟩]

/-! ### Helper lemmas: integer column min/max -/

theorem foldl_min_le_init (l : List Int) (a : Int) : l.foldl min a ≤ a := by
  induction l generalizing a with
  | nil => simp
  | cons x xs ih =>
    exact le_trans (ih (min a x)) (min_le_left a x)

theorem foldl_min_le_mem (l : List Int) (a x : Int) (hx : x ∈ l) :
    l.foldl min a ≤ x := by
  revert hx
  induction l generalizing a with
  | nil => intro hx; cases hx
  | cons y ys ih =>
    intro hx
    rcases List.mem_cons.mp hx with rfl | h
    · exact le_trans (foldl_min_le_init ys (min a x)) (min_le_right a x)
    · exact ih (min a y) h

theorem foldl_min_choice (l : List Int) (a : Int) :
    l.foldl min a = a ∨ l.foldl min a ∈ l := by
  induction l generalizing a with
  | nil => exact Or.inl rfl
  | cons y ys ih =>
    rcases ih (min a y) with h | h
    · rcases min_choice a y with h2 | h2
      · exact Or.inl (by rw [List.foldl_cons, h, h2])
      · exact Or.inr (by rw [List.foldl_cons, h, h2]; exact List.mem_cons_self y ys)
    · exact Or.inr (List.mem_cons_of_mem y h)

theorem foldl_max_ge_init (l : List Int) (a : Int) : a ≤ l.foldl max a := by
  induction l generalizing a with
  | nil => simp
  | cons x xs ih =>
    exact le_trans (le_max_left a x) (ih (max a x))

theorem foldl_max_ge_mem (l : List Int) (a x : Int) (hx : x ∈ l) :
    x ≤ l.foldl max a := by
  revert hx
  induction l generalizing a with
  | nil => intro hx; cases hx
  | cons y ys ih =>
    intro hx
    rcases List.mem_cons.mp hx with rfl | h
    · exact le_trans (le_max_right a x) (foldl_max_ge_init ys (max a x))
    · exact ih (max a y) h

theorem foldl_max_choice (l : List Int) (a : Int) :
    l.foldl max a = a ∨ l.foldl max a ∈ l := by
  induction l generalizing a with
  | nil => exact Or.inl rfl
  | cons y ys ih =>
    rcases ih (max a y) with h | h
    · rcases max_choice a y with h2 | h2
      · exact Or.inl (by rw [List.foldl_cons, h, h2])
      · exact Or.inr (by rw [List.foldl_cons, h, h2]; exact List.mem_cons_self y ys)
    · exact Or.inr (List.mem_cons_of_mem y h)

theorem colMin_le (l : List Int) (x : Int) (hx : x ∈ l) : colMin l ≤ x := by
  cases l with
  | nil => cases hx
  | cons y ys =>
    rcases List.mem_cons.mp hx with rfl | h
    · exact foldl_min_le_init ys x
    · exact foldl_min_le_mem ys y x h

theorem colMin_mem (l : List Int) (h : l ≠ []) : colMin l ∈ l := by
  cases l with
  | nil => exact absurd rfl h
  | cons y ys =>
    show ys.foldl min y ∈ y :: ys
    rcases foldl_min_choice ys y with h2 | h2
    · rw [h2]; exact List.mem_cons_self y ys
    · exact List.mem_cons_of_mem y h2

theorem colMax_ge (l : List Int) (x : Int) (hx : x ∈ l) : x ≤ colMax l := by
  cases l with
  | nil => cases hx
  | cons y ys =>
    rcases List.mem_cons.mp hx with rfl | h
    · exact foldl_max_ge_init ys x
    · exact foldl_max_ge_mem ys y x h

theorem colMax_mem (l : List Int) (h : l ≠ []) : colMax l ∈ l := by
  cases l with
  | nil => exact absurd rfl h
  | cons y ys =>
    show ys.foldl max y ∈ y :: ys
    rcases foldl_max_choice ys y with h2 | h2
    · rw [h2]; exact List.mem_cons_self y ys
    · exact List.mem_cons_of_mem y h2

/-! ### Helper lemmas: Python min/max over pandas values -/

theorem pyMin_cons (x y : PTs) (ys : List PTs) :
    pyMin x (y :: ys) = pyMin (if pyLt y x then y else x) ys := rfl

theorem pyMax_cons (x y : PTs) (ys : List PTs) :
    pyMax x (y :: ys) = pyMax (if pyGt y x then y else x) ys := rfl

/-- Starting Python `min` from a real timestamp yields a real timestamp
that is a lower bound for the start value and every real timestamp in the
list (`NaT` entries later in the list never displace a real running
minimum, because every comparison against `NaT` is `False`). -/
theorem pyMin_ts (l : List PTs) (a : Int) :
    ∃ r, pyMin (.t a) l = .t r ∧ r ≤ a ∧ ∀ n, PTs.t n ∈ l → r ≤ n := by
  induction l generalizing a with
  | nil => exact ⟨a, rfl, le_refl a, fun n hn => (List.not_mem_nil _ hn).elim⟩
  | cons x xs ih =>
    cases x with
    | nat =>
      rcases ih a with ⟨r, hr, hra, hmem⟩
      refine ⟨r, ?_, hra, ?_⟩
      · rw [pyMin_cons]; simpa [pyLt] using hr
      · intro n hn
        rcases List.mem_cons.mp hn with h | h
        · cases h
        · exact hmem n h
    | t b =>
      by_cases hba : b < a
      · rcases ih b with ⟨r, hr, hrb, hmem⟩
        refine ⟨r, ?_, le_trans hrb (le_of_lt hba), ?_⟩
        · rw [pyMin_cons]; simpa [pyLt, hba] using hr
        · intro n hn
          rcases List.mem_cons.mp hn with h | h
          · cases h; exact hrb
          · exact hmem n h
      · rcases ih a with ⟨r, hr, hra, hmem⟩
        refine ⟨r, ?_, hra, ?_⟩
        · rw [pyMin_cons]; simpa [pyLt, hba] using hr
        · intro n hn
          rcases List.mem_cons.mp hn with h | h
          · cases h; exact le_trans hra (le_of_not_lt hba)
          · exact hmem n h

/-- Starting Python `max` from a real timestamp: dual of `pyMin_ts`. -/
theorem pyMax_ts (l : List PTs) (a : Int) :
    ∃ r, pyMax (.t a) l = .t r ∧ a ≤ r ∧ ∀ n, PTs.t n ∈ l → n ≤ r := by
  induction l generalizing a with
  | nil => exact ⟨a, rfl, le_refl a, fun n hn => (List.not_mem_nil _ hn).elim⟩
  | cons x xs ih =>
    cases x with
    | nat =>
      rcases ih a with ⟨r, hr, hra, hmem⟩
      refine ⟨r, ?_, hra, ?_⟩
      · rw [pyMax_cons]; simpa [pyGt] using hr
      · intro n hn
        rcases List.mem_cons.mp hn with h | h
        · cases h
        · exact hmem n h
    | t b =>
      by_cases hba : a < b
      · rcases ih b with ⟨r, hr, hrb, hmem⟩
        refine ⟨r, ?_, le_trans (le_of_lt hba) hrb, ?_⟩
        · rw [pyMax_cons]; simpa [pyGt, hba] using hr
        · intro n hn
          rcases List.mem_cons.mp hn with h | h
          · cases h; exact hrb
          · exact hmem n h
      · rcases ih a with ⟨r, hr, hra, hmem⟩
        refine ⟨r, ?_, hra, ?_⟩
        · rw [pyMax_cons]; simpa [pyGt, hba] using hr
        · intro n hn
          rcases List.mem_cons.mp hn with h | h
          · cases h; exact le_trans (le_of_not_lt hba) hra
          · exact hmem n h

/-- On a `NaT`-free list Python `min` agrees with the integer fold. -/
theorem pyMin_map_t (ms : List Int) (a : Int) :
    pyMin (.t a) (ms.map PTs.t) = .t (ms.foldl min a) := by
  induction ms generalizing a with
  | nil => rfl
  | cons m ms ih =>
    rw [List.map_cons, pyMin_cons, List.foldl_cons]
    have : (if pyLt (.t m) (.t a) then PTs.t m else PTs.t a) = .t (min a m) := by
      by_cases h : m < a
      · simp [pyLt, h, min_eq_right (le_of_lt h)]
      · simp [pyLt, h, min_eq_left (le_of_not_lt h)]
    rw [this, ih]

/-- On a `NaT`-free list Python `max` agrees with the integer fold. -/
theorem pyMax_map_t (ms : List Int) (a : Int) :
    pyMax (.t a) (ms.map PTs.t) = .t (ms.foldl max a) := by
  induction ms generalizing a with
  | nil => rfl
  | cons m ms ih =>
    rw [List.map_cons, pyMax_cons, List.foldl_cons]
    have : (if pyGt (.t m) (.t a) then PTs.t m else PTs.t a) = .t (max a m) := by
      by_cases h : a < m
      · simp [pyGt, h, max_eq_right (le_of_lt h)]
      · simp [pyGt, h, max_eq_left (le_of_not_lt h)]
    rw [this, ih]

/-! ### Helper lemmas: parsing clean field lists -/

/-- On fields none of which is unparsable, the code's candidate collection
(`parse_ts`, keep when not `None`) produces exactly the spec's instants,
tagged as timestamps. -/
theorem filterMap_parse_clean (fs : List RawTs)
    (h : ∀ f ∈ fs, f ≠ RawTs.invalid) :
    fs.filterMap parse_ts = (fs.filterMap rawVal).map PTs.t := by
  induction fs with
  | nil => rfl
  | cons f fs ih =>
    have hf := h f (List.mem_cons_self f fs)
    have htail : ∀ g ∈ fs, g ≠ RawTs.invalid :=
      fun g hg => h g (List.mem_cons_of_mem f hg)
    cases f with
    | missing => simpa [List.filterMap_cons, parse_ts, rawVal] using ih htail
    | invalid => exact absurd rfl hf
    | valid n => simpa [List.filterMap_cons, parse_ts, rawVal] using ih htail

/-- A candidate obtained from a clean field list is never `NaT`. -/
theorem clean_no_nat (fs : List RawTs) (h : ∀ f ∈ fs, f ≠ RawTs.invalid)
    (p : PTs) (hp : p ∈ fs.filterMap parse_ts) : p ≠ PTs.nat := by
  rcases List.mem_filterMap.mp hp with ⟨f, hf, hpf⟩
  cases f with
  | missing => cases hpf
  | invalid => exact absurd rfl (h _ hf)
  | valid n =>
    cases hpf
    intro hc
    cases hc

/-- The shared window formula agrees with the spec formula on `NaT`-free
candidate lists. -/
theorem windowOf_map (S E : List Int) :
    windowOf (S.map PTs.t) (E.map PTs.t) = windowSpecOf S E := by
  cases S with
  | nil =>
    cases E with
    | nil => rfl
    | cons b zs => rfl
  | cons a ys =>
    cases E with
    | nil => rfl
    | cons b zs =>
      show (some ((pyMin (.t a) (ys.map PTs.t)).sub 60),
            some ((pyMax (.t b) (zs.map PTs.t)).add 60)) = _
      rw [pyMin_map_t, pyMax_map_t]
      rfl

/-! ### Helper lemmas: frames, sorting and slicing -/

theorem sortC_perm (l : List CandleC) : List.Perm (sortC l) l :=
  List.mergeSort_perm l _

theorem sortC_ne_nil (l : List CandleC) (h : l ≠ []) : sortC l ≠ [] := by
  intro hc
  have := (sortC_perm l).length_eq
  rw [hc] at this
  exact h (List.eq_nil_of_length_eq_zero this.symm)

theorem toC_convertRow (c : CandleIn) : toC (convertRow c) = toC c := by
  cases hc : c.ts_event <;> simp [toC, convertRow, convertCell, cellVal, hc]

theorem map_toC_convertRow (df : List CandleIn) :
    (df.map convertRow).map toC = df.map toC := by
  rw [List.map_map]
  exact List.map_congr_left (fun c _ => toC_convertRow c)

/-- The timestamps of the prepared working frame are a permutation of the
input series' timestamps. -/
theorem prepFrame_ts_perm (df : List CandleIn) :
    List.Perm ((prepFrame df).map (fun c => c.ts_event))
      (df.map (fun c => cellVal c.ts_event)) := by
  have h1 : List.Perm ((prepFrame df).map (fun c => c.ts_event))
      ((df.map toC).map (fun c => c.ts_event)) :=
    (sortC_perm (df.map toC)).map _
  rw [List.map_map] at h1
  exact h1

theorem prepFrame_ne_nil (df : List CandleIn) (h : df ≠ []) :
    prepFrame df ≠ [] := by
  apply sortC_ne_nil
  simpa using h

theorem sliceBetween_ne_nil (dfF : List CandleC) (s e : PTs)
    (h : dfF ≠ []) : sliceBetween dfF s e ≠ [] := by
  unfold sliceBetween
  by_cases hd : (dfF.filter (fun c => tsGe c.ts_event s && tsLe c.ts_event e)).isEmpty
  · simpa [hd] using h
  · simpa [hd] using (by simpa [List.isEmpty_iff] using hd)

theorem sliceBetween_subset (dfF : List CandleC) (s e : PTs)
    (c : CandleC) (hc : c ∈ sliceBetween dfF s e) : c ∈ dfF := by
  unfold sliceBetween at hc
  by_cases hd : (dfF.filter (fun x => tsGe x.ts_event s && tsLe x.ts_event e)).isEmpty
  · simpa [hd] using hc
  · rw [if_neg hd] at hc
    exact List.mem_of_mem_filter hc

/-- Core containment fact: a non-empty selection out of the prepared frame
has its timestamp minimum and maximum inside the input series' span. -/
theorem slice_ts_bounds (df : List CandleIn) (sl : List CandleC)
    (hsl : ∀ c ∈ sl, c ∈ prepFrame df) (hne : sl ≠ []) :
    dataMinIn df ≤ colMin (sl.map (fun c => c.ts_event)) ∧
      colMax (sl.map (fun c => c.ts_event)) ≤ dataMaxIn df := by
  have hmapne : sl.map (fun c => c.ts_event) ≠ [] := by
    simpa using hne
  have hmem : ∀ v ∈ sl.map (fun c => c.ts_event),
      v ∈ df.map (fun c => cellVal c.ts_event) := by
    intro v hv
    rcases List.mem_map.mp hv with ⟨c, hc, rfl⟩
    have : c.ts_event ∈ (prepFrame df).map (fun c => c.ts_event) :=
      List.mem_map_of_mem _ (hsl c hc)
    exact (prepFrame_ts_perm df).mem_iff.mp this
  constructor
  · exact colMin_le _ _ (hmem _ (colMin_mem _ hmapne))
  · exact colMax_ge _ _ (hmem _ (colMax_mem _ hmapne))

/-- Every row of the prepared frame carries a timestamp within the input
series' span. -/
theorem prepFrame_ts_le_max (df : List CandleIn) (c : CandleC)
    (hc : c ∈ prepFrame df) : c.ts_event ≤ dataMaxIn df := by
  have : c.ts_event ∈ (prepFrame df).map (fun x => x.ts_event) :=
    List.mem_map_of_mem _ hc
  exact colMax_ge _ _ ((prepFrame_ts_perm df).mem_iff.mp this)

/-! ### Helper lemmas: candidate lists of the window selectors -/

theorem specStarts5m_eq (ev : EventRecord) :
    specStarts5m ev = (startFields ev ++ tradeFields ev).filterMap rawVal := by
  simp only [specStarts5m, startFields, tradeFields, List.append_assoc,
    List.filterMap_append, List.filterMap_flatMap, List.filterMap_map,
    Function.comp]
  rfl

theorem specEnds5m_eq (ev : EventRecord) :
    specEnds5m ev = (endFields ev ++ tradeFields ev).filterMap rawVal := by
  simp only [specEnds5m, endFields, tradeFields, List.append_assoc,
    List.filterMap_append, List.filterMap_flatMap, List.filterMap_map,
    Function.comp]
  rfl

theorem specStartsBase_eq (ev : EventRecord) :
    specStartsBase ev = (startFields ev).filterMap rawVal := by
  simp only [specStartsBase, startFields, List.append_assoc,
    List.filterMap_append, List.filterMap_flatMap, List.filterMap_map,
    Function.comp]
  rfl

theorem specEndsBase_eq (ev : EventRecord) :
    specEndsBase ev = (endFields ev).filterMap rawVal := by
  simp only [specEndsBase, endFields, List.append_assoc,
    List.filterMap_append, List.filterMap_flatMap, List.filterMap_map,
    Function.comp]
  rfl

theorem clean5m_cleanBase (ev : EventRecord) (h : clean5m ev) :
    cleanBase ev := by
  intro f hf
  apply h
  simp only [List.mem_append] at hf ⊢
  tauto

theorem clean5m_starts (ev : EventRecord) (h : clean5m ev) :
    ∀ f ∈ startFields ev ++ tradeFields ev, f ≠ RawTs.invalid := by
  intro f hf
  apply h
  simp only [List.mem_append] at hf ⊢
  tauto

theorem clean5m_ends (ev : EventRecord) (h : clean5m ev) :
    ∀ f ∈ endFields ev ++ tradeFields ev, f ≠ RawTs.invalid := by
  intro f hf
  apply h
  simp only [List.mem_append] at hf ⊢
  tauto

theorem cleanBase_starts (ev : EventRecord) (h : cleanBase ev) :
    ∀ f ∈ startFields ev, f ≠ RawTs.invalid := by
  intro f hf
  exact h f (List.mem_append.mpr (Or.inl hf))

theorem cleanBase_ends (ev : EventRecord) (h : cleanBase ev) :
    ∀ f ∈ endFields ev, f ≠ RawTs.invalid := by
  intro f hf
  exact h f (List.mem_append.mpr (Or.inr hf))

theorem candidatesStart5m_clean (ev : EventRecord) (h : clean5m ev) :
    candidatesStart5m ev = (specStarts5m ev).map PTs.t := by
  rw [candidatesStart5m, specStarts5m_eq]
  exact filterMap_parse_clean _ (clean5m_starts ev h)

theorem candidatesEnd5m_clean (ev : EventRecord) (h : clean5m ev) :
    candidatesEnd5m ev = (specEnds5m ev).map PTs.t := by
  rw [candidatesEnd5m, specEnds5m_eq]
  exact filterMap_parse_clean _ (clean5m_ends ev h)

theorem candidatesStart_clean (ev : EventRecord) (h : cleanBase ev) :
    candidatesStart ev = (specStartsBase ev).map PTs.t := by
  rw [candidatesStart, specStartsBase_eq]
  exact filterMap_parse_clean _ (cleanBase_starts ev h)

theorem candidatesEnd_clean (ev : EventRecord) (h : cleanBase ev) :
    candidatesEnd ev = (specEndsBase ev).map PTs.t := by
  rw [candidatesEnd, specEndsBase_eq]
  exact filterMap_parse_clean _ (cleanBase_ends ev h)

/-! ### Claim C1 -/

/-- C1, counterexample.  The claim describes one "window selector
(get_time_window)" whose scan includes every trade signal's entry and exit
times, and cites both copies.  On an event holding nothing but one trade
signal entered at minute 600, the claimed algorithm (and the
chart_builder_5m.py copy) yields the padded window (540, 660), but the
chart_builder.py copy — the one app.py imports — yields `(None, None)`
because its scan omits trade signals, refuting the claim as stated. -/
theorem c1_counterexample :
    get_time_window evTradeOnly = (none, none) ∧
    get_time_window_5m evTradeOnly = (some (PTs.t 540), some (PTs.t 660)) := by
  decide

/-- C1, amended.  On events without unparsable timestamp fields, the
chart_builder_5m.py `get_time_window` computes exactly the claimed
algorithm (scan including trade signals, `(Absent, Absent)` on an empty
set, else `(min(starts) - 1h, max(ends) + 1h)`), while the
chart_builder.py copy computes the same algorithm with the trade-signal
scan omitted. -/
theorem c1_amended (ev : EventRecord) (h : clean5m ev) :
    get_time_window_5m ev = selectWindowSpec5m ev ∧
    get_time_window ev = selectWindowSpecBase ev := by
  constructor
  · rw [get_time_window_5m, selectWindowSpec5m,
      candidatesStart5m_clean ev h, candidatesEnd5m_clean ev h]
    exact windowOf_map _ _
  · have hb := clean5m_cleanBase ev h
    rw [get_time_window, selectWindowSpecBase,
      candidatesStart_clean ev hb, candidatesEnd_clean ev hb]
    exact windowOf_map _ _

/-- C1, witness for the amended theorem at the concrete trade-only
event. -/
theorem c1_amended_witness :
    get_time_window_5m evTradeOnly = selectWindowSpec5m evTradeOnly ∧
    get_time_window evTradeOnly = selectWindowSpecBase evTradeOnly :=
  c1_amended evTradeOnly (by decide)

/-! ### Claim C2 -/

/-- C2, code-bug evaluation.  `parse_ts` maps an unparsable string to
`NaT` — which is not `None`, so it passes the selector's `is not None`
guard, enters `candidates_start`, and (because every comparison against
`NaT` is `False`) Python's `min` sticks at a leading `NaT`.  On the event
whose hourly pretouch window start is unparsable and whose only real
timestamp is a 5m FVG start at minute 600, the window start is `NaT`
instead of the claimed `min(starts) - 1h = 540`, so the unparsable field
does participate in (and poisons) the min computation. -/
theorem c2_unparsable_poisons_min :
    parse_ts RawTs.invalid = some PTs.nat ∧
    get_time_window evUnparsable = (some PTs.nat, some (PTs.t 660)) := by
  decide

/-! ### Claim C4 -/

/-- C4, counterexample.  On an event whose only timestamps are a pretouch
window start at minute 600 (a starts-only candidate) and a pretouch window
end at minute 0 (an ends-only candidate), `get_time_window` returns both
results present with start = 540 > end = 60, refuting both `start ≤ end`
and `end - start ≥ 2h` although valid timestamps exist in the event. -/
theorem c4_counterexample :
    get_time_window evOneSided = (some (PTs.t 540), some (PTs.t 60)) ∧
    ¬ (540 : Int) ≤ 60 := by
  decide

/-- C4, amended.  If no scanned field is unparsable and some instant `n`
is contributed to both candidate sets (as the hourly start time, every 5m
FVG time, and every BOS time are), then both results are present,
`start ≤ end`, and `end - start ≥ 2` hours; with only one-sided
contributors (pretouch/posttouch bounds alone) the order can invert, as
the counterexample shows. -/
theorem c4_amended (ev : EventRecord) (n : Int) (hclean : cleanBase ev)
    (hs : PTs.t n ∈ candidatesStart ev) (he : PTs.t n ∈ candidatesEnd ev) :
    ∃ a b, get_time_window ev = (some (PTs.t a), some (PTs.t b)) ∧
      a ≤ b ∧ 120 ≤ b - a := by
  rcases hcs : candidatesStart ev with _ | ⟨s, ss⟩
  · rw [hcs] at hs; cases hs
  rcases hce : candidatesEnd ev with _ | ⟨e, es⟩
  · rw [hce] at he; cases he
  have hs_mem : s ∈ candidatesStart ev := by
    rw [hcs]; exact List.mem_cons_self s ss
  have he_mem : e ∈ candidatesEnd ev := by
    rw [hce]; exact List.mem_cons_self e es
  have hsnat := clean_no_nat (startFields ev) (cleanBase_starts ev hclean) s hs_mem
  have henat := clean_no_nat (endFields ev) (cleanBase_ends ev hclean) e he_mem
  obtain ⟨a0, rfl⟩ : ∃ a0, s = PTs.t a0 := by
    cases s with
    | nat => exact absurd rfl hsnat
    | t v => exact ⟨v, rfl⟩
  obtain ⟨b0, rfl⟩ : ∃ b0, e = PTs.t b0 := by
    cases e with
    | nat => exact absurd rfl henat
    | t v => exact ⟨v, rfl⟩
  obtain ⟨r, hrEq, hra, hrmem⟩ := pyMin_ts ss a0
  obtain ⟨q, hqEq, hqb, hqmem⟩ := pyMax_ts es b0
  have hrn : r ≤ n := by
    rw [hcs] at hs
    rcases List.mem_cons.mp hs with h1 | h1
    · cases h1; exact hra
    · exact hrmem n h1
  have hnq : n ≤ q := by
    rw [hce] at he
    rcases List.mem_cons.mp he with h1 | h1
    · cases h1; exact hqb
    · exact hqmem n h1
  refine ⟨r - 60, q + 60, ?_, by omega, by omega⟩
  show windowOf (candidatesStart ev) (candidatesEnd ev) = _
  rw [hcs, hce]
  show (some ((pyMin (.t a0) ss).sub 60), some ((pyMax (.t b0) es).add 60)) = _
  rw [hrEq, hqEq]
  rfl

/-- C4, witness for the amended theorem: the hourly start time at minute
600 contributes to both candidate sets, so the padded window is present
and two hours wide. -/
theorem c4_amended_witness :
    ∃ a b, get_time_window evStartOnly = (some (PTs.t a), some (PTs.t b)) ∧
      a ≤ b ∧ 120 ≤ b - a :=
  c4_amended evStartOnly 600 (by decide) (by decide) (by decide)

/-! ### Claim C3 -/

/-- C3, counterexample.  app.py computes the derived metrics only inside
the block guarded by `entry_price is not None and stop_loss is not None
and exit_price is not None`, so for a still-open trade with entry 100 and
stop 95 — both present — no `riskUnit` is computed (or displayed),
refuting the claim that `riskUnit` is computed whenever entry and stop are
present, even without an exit price. -/
theorem c3_counterexample :
    sigOpen.entry_price = some 100 ∧ sigOpen.stop_loss = some 95 ∧
    sigOpen.exit_price = none ∧ (computeMetrics sigOpen).1 = none := by
  decide

/-- C3, amended.  For a trade signal with entry price and stop loss
present, `riskUnit = |entryPrice - stopLoss|` is computed exactly when the
exit price is also present; an open trade (no exit price) yields no
`riskUnit`. -/
theorem c3_amended (sig : TradeSignal) (ep sl : ℚ)
    (h1 : sig.entry_price = some ep) (h2 : sig.stop_loss = some sl) :
    (computeMetrics sig).1 = sig.exit_price.map (fun _ => |ep - sl|) := by
  cases h3 : sig.exit_price with
  | none => simp [computeMetrics, h1, h2, h3]
  | some xp => simp [computeMetrics, h1, h2, h3]

/-- C3, witness for the amended theorem at the closed trade of spec
example E2E-2. -/
theorem c3_amended_witness :
    (computeMetrics sigClosed).1 =
      sigClosed.exit_price.map (fun _ => |(100 : ℚ) - 95|) :=
  c3_amended sigClosed 100 95 rfl rfl

/-! ### Claim C6 -/

/-- C6.  Whenever the computed risk unit is zero, `pnlInRisk` is absent:
the division is guarded by `if R and ...`, and a zero float is falsy, so
`pnl_points / R` is never attempted for `R = 0`. -/
theorem c6_zero_risk_guard (sig : TradeSignal)
    (h : (computeMetrics sig).1 = some 0) :
    (computeMetrics sig).2.2 = none := by
  cases h1 : sig.entry_price with
  | none => simp [computeMetrics, h1] at h
  | some ep =>
    cases h2 : sig.stop_loss with
    | none => simp [computeMetrics, h1, h2] at h
    | some sl =>
      cases h3 : sig.exit_price with
      | none => simp [computeMetrics, h1, h2, h3] at h
      | some xp =>
        simp [computeMetrics, h1, h2, h3] at h ⊢
        simp [h]

/-- C6, witness: the spec-P6 trade (entry 100, stop 100, exit 110,
buy_long) has risk unit zero and hence no `pnlInRisk`. -/
theorem c6_zero_risk_guard_witness :
    (computeMetrics sigZeroRisk).2.2 = none :=
  c6_zero_risk_guard sigZeroRisk (by simp [computeMetrics, sigZeroRisk])

/-! ### Builder characterization lemmas -/

theorem slice_bounds_prep (df : List CandleIn) (h : df ≠ []) (s e : PTs) :
    dataMinIn df ≤
        colMin ((sliceBetween (sortC (df.map toC)) s e).map
          (fun c => c.ts_event)) ∧
      colMax ((sliceBetween (sortC (df.map toC)) s e).map
          (fun c => c.ts_event)) ≤ dataMaxIn df := by
  have hne := sliceBetween_ne_nil (prepFrame df) s e (prepFrame_ne_nil df h)
  exact slice_ts_bounds df _ (fun c hc => sliceBetween_subset _ _ _ c hc) hne

/-- On a non-empty frame, chart_builder.py `build_chart` emits a chart
whose slice is non-empty and whose displayed axis range — the sliced
frame's min and max — lies inside the input series' span. -/
theorem build_chart_bounds (df : List CandleIn) (ev : EventRecord)
    (h : df ≠ []) :
    ∃ o r, build_chart df ev = (some o, r) ∧
      dataMinIn df ≤ o.axis_lo ∧ o.axis_hi ≤ dataMaxIn df ∧
      o.slice ≠ [] := by
  cases df with
  | nil => exact absurd rfl h
  | cons d ds =>
    have hcons : (d :: ds : List CandleIn) ≠ [] := by simp
    refine ⟨_, _, rfl, ?_, ?_, ?_⟩ <;> rw [map_toC_convertRow]
    · exact (slice_bounds_prep (d :: ds) hcons _ _).1
    · exact (slice_bounds_prep (d :: ds) hcons _ _).2
    · exact sliceBetween_ne_nil _ _ _ (prepFrame_ne_nil (d :: ds) hcons)

/-- On a non-empty frame, chart_builder_5m.py `build_chart` emits a chart
with the same properties and returns the caller's frame untouched. -/
theorem build_chart_5m_bounds (df : List CandleIn) (ev : EventRecord)
    (h : df ≠ []) :
    ∃ o, build_chart_5m df ev = (some o, df) ∧
      dataMinIn df ≤ o.axis_lo ∧ o.axis_hi ≤ dataMaxIn df ∧
      o.slice ≠ [] := by
  cases df with
  | nil => exact absurd rfl h
  | cons d ds =>
    have hcons : (d :: ds : List CandleIn) ≠ [] := by simp
    refine ⟨_, rfl, ?_, ?_, ?_⟩
    · exact (slice_bounds_prep (d :: ds) hcons _ _).1
    · exact (slice_bounds_prep (d :: ds) hcons _ _).2
    · exact sliceBetween_ne_nil _ _ _ (prepFrame_ne_nil (d :: ds) hcons)

/-- On a non-empty frame with a trade signal present, the hourly builder
emits a chart whose slice is a non-empty selection from the prepared frame
and whose axis range is the unclamped `axis1h` of that slice and the raw
entry/exit timestamps. -/
theorem build_chart_1h_spec (df : List CandleIn) (ev : EventRecord)
    (sig : TradeSignal) (h : df ≠ []) (hsig : get_trade ev = some sig) :
    ∃ o, build_chart_1h df ev = some o ∧
      (∀ c ∈ o.slice, c ∈ prepFrame df) ∧ o.slice ≠ [] ∧
      (o.axis_lo, o.axis_hi) =
        axis1h o.slice (parse_ts sig.entry_ts) (parse_ts sig.exit_ts) := by
  cases df with
  | nil => exact absurd rfl h
  | cons d ds =>
    have hcons : (d :: ds : List CandleIn) ≠ [] := by simp
    have hne : prepFrame (d :: ds) ≠ [] := prepFrame_ne_nil _ hcons
    have hnotE : ¬((prepFrame (d :: ds)).isEmpty = true) := by
      simpa [List.isEmpty_iff] using hne
    simp only [build_chart_1h, hsig]
    rw [build1hCore, if_neg hnotE]
    refine ⟨_, rfl, ?_, ?_, rfl⟩
    · intro c hc
      exact sliceBetween_subset _ _ _ c hc
    · exact sliceBetween_ne_nil _ _ _ hne

/-- On a non-empty frame with a trade signal present, the 1-minute builder
emits a chart whose slice is a non-empty selection from the prepared
frame. -/
theorem build_chart_1m_spec (df : List CandleIn) (ev : EventRecord)
    (sig : TradeSignal) (h : df ≠ []) (hsig : get_trade ev = some sig) :
    ∃ o, build_chart_1m df ev = some o ∧
      (∀ c ∈ o.slice, c ∈ prepFrame df) ∧ o.slice ≠ [] := by
  cases df with
  | nil => exact absurd rfl h
  | cons d ds =>
    have hcons : (d :: ds : List CandleIn) ≠ [] := by simp
    simp only [build_chart_1m, hsig]
    refine ⟨_, rfl, ?_, ?_⟩
    · intro c hc
      exact sliceBetween_subset _ _ _ c hc
    · exact sliceBetween_ne_nil _ _ _ (prepFrame_ne_nil _ hcons)

/-! ### Claim C5 -/

/-- C5.  For the 5-minute view on a non-empty candle series, the displayed
window — the x-axis range both builders set from the sliced frame's
minimum and maximum timestamps — always satisfies `dataMin ≤ start` and
`end ≤ dataMax`, in the chart_builder.py copy and the chart_builder_5m.py
copy alike. -/
theorem c5_clamp_containment (df : List CandleIn) (ev : EventRecord)
    (h : df ≠ []) :
    ∃ o1 r1 o2, build_chart df ev = (some o1, r1) ∧
      build_chart_5m df ev = (some o2, df) ∧
      dataMinIn df ≤ o1.axis_lo ∧ o1.axis_hi ≤ dataMaxIn df ∧
      dataMinIn df ≤ o2.axis_lo ∧ o2.axis_hi ≤ dataMaxIn df := by
  obtain ⟨o1, r1, h1, hb1, hb2, _⟩ := build_chart_bounds df ev h
  obtain ⟨o2, h2, hb3, hb4, _⟩ := build_chart_5m_bounds df ev h
  exact ⟨o1, r1, o2, h1, h2, hb1, hb2, hb3, hb4⟩

/-- C5, witness at a concrete two-candle series and the trade-only
event. -/
theorem c5_clamp_containment_witness :
    ∃ o1 r1 o2, build_chart dfDt evTradeOnly = (some o1, r1) ∧
      build_chart_5m dfDt evTradeOnly = (some o2, dfDt) ∧
      dataMinIn dfDt ≤ o1.axis_lo ∧ o1.axis_hi ≤ dataMaxIn dfDt ∧
      dataMinIn dfDt ≤ o2.axis_lo ∧ o2.axis_hi ≤ dataMaxIn dfDt :=
  c5_clamp_containment dfDt evTradeOnly (by decide)

/-! ### Claim C7 -/

theorem axis1h_contains (sl : List CandleC) (eT xT : Option PTs) (m : Int)
    (hm : eT = some (PTs.t m) ∨ xT = some (PTs.t m)) :
    ∃ lo hi, axis1h sl eT xT = (PTs.t lo, PTs.t hi) ∧
      lo ≤ m ∧ m ≤ hi := by
  have hmem : PTs.t m ∈
      (PTs.t (colMax (sl.map (fun c => c.ts_event)))) ::
        (eT.toList ++ xT.toList) := by
    rcases hm with hm | hm <;> simp [hm]
  obtain ⟨r, hrEq, _, hrmem⟩ :=
    pyMin_ts ((PTs.t (colMax (sl.map (fun c => c.ts_event)))) ::
      (eT.toList ++ xT.toList)) (colMin (sl.map (fun c => c.ts_event)))
  obtain ⟨q, hqEq, _, hqmem⟩ :=
    pyMax_ts ((PTs.t (colMax (sl.map (fun c => c.ts_event)))) ::
      (eT.toList ++ xT.toList)) (colMin (sl.map (fun c => c.ts_event)))
  have hrm := hrmem m hmem
  have hqm := hqmem m hmem
  refine ⟨r - 30, q + 30, ?_, by omega, by omega⟩
  show ((pyMin _ _).sub 30, (pyMax _ _).add 30) = _
  rw [hrEq, hqEq]
  rfl

/-- C7.  For the hourly view on a non-empty series with a trade signal:
every candle drawn lies at or before `dataMax` (the slice is clamped), yet
the displayed axis range is real (never `NaT`) and contains every parsed
entry/exit marker instant `m` — even one past the last sliced candle — so
the marker is never outside the axis range. -/
theorem c7_axis_unclamped (df : List CandleIn) (ev : EventRecord)
    (sig : TradeSignal) (m : Int) (h : df ≠ [])
    (hsig : get_trade ev = some sig)
    (hm : parse_ts sig.entry_ts = some (PTs.t m) ∨
      parse_ts sig.exit_ts = some (PTs.t m)) :
    ∃ o, build_chart_1h df ev = some o ∧
      (∀ c ∈ o.slice, c.ts_event ≤ dataMaxIn df) ∧
      ∃ lo hi, o.axis_lo = PTs.t lo ∧ o.axis_hi = PTs.t hi ∧
        lo ≤ m ∧ m ≤ hi := by
  obtain ⟨o, ho, hsub, hne, hax⟩ := build_chart_1h_spec df ev sig h hsig
  refine ⟨o, ho, ?_, ?_⟩
  · intro c hc
    exact prepFrame_ts_le_max df c (hsub c hc)
  · obtain ⟨lo, hi, haxeq, hlom, hmhi⟩ := axis1h_contains o.slice _ _ m hm
    have hpair : (o.axis_lo, o.axis_hi) = (PTs.t lo, PTs.t hi) :=
      hax.trans haxeq
    exact ⟨lo, hi, congrArg Prod.fst hpair, congrArg Prod.snd hpair,
      hlom, hmhi⟩

/-- C7, witness: two candles ending at minute 300, entry marker at minute
600 — past the data span — still inside the returned axis range. -/
theorem c7_axis_unclamped_witness :
    ∃ o, build_chart_1h dfDt evTradeOnly = some o ∧
      (∀ c ∈ o.slice, c.ts_event ≤ dataMaxIn dfDt) ∧
      ∃ lo hi, o.axis_lo = PTs.t lo ∧ o.axis_hi = PTs.t hi ∧
        lo ≤ 600 ∧ 600 ≤ hi :=
  c7_axis_unclamped dfDt evTradeOnly sigTrade 600 (by decide) (by decide)
    (Or.inl (by decide))

/-! ### Claim C8 -/

/-- C8.  In every timeframe view, on a non-empty candle series, the candle
slice actually rendered is non-empty: each builder falls back to the full
series when the windowed selection is empty (placeholder figures render no
slice and pass vacuously). -/
theorem c8_fallback_nonempty (df : List CandleIn) (ev : EventRecord)
    (h : df ≠ []) :
    renderedNonempty (build_chart df ev).1 = true ∧
    renderedNonempty (build_chart_5m df ev).1 = true ∧
    renderedNonempty1h (build_chart_1h df ev) = true ∧
    renderedNonempty1m (build_chart_1m df ev) = true := by
  refine ⟨?_, ?_, ?_, ?_⟩
  · obtain ⟨o, r, heq, _, _, hne⟩ := build_chart_bounds df ev h
    rw [heq]
    simpa [renderedNonempty, List.isEmpty_iff] using hne
  · obtain ⟨o, heq, _, _, hne⟩ := build_chart_5m_bounds df ev h
    rw [heq]
    simpa [renderedNonempty, List.isEmpty_iff] using hne
  · rcases hsig : get_trade ev with _ | sig
    · cases df with
      | nil => exact absurd rfl h
      | cons d ds => simp [build_chart_1h, hsig, renderedNonempty1h]
    · obtain ⟨o, heq, _, hne, _⟩ := build_chart_1h_spec df ev sig h hsig
      rw [heq]
      simpa [renderedNonempty1h, List.isEmpty_iff] using hne
  · rcases hsig : get_trade ev with _ | sig
    · cases df with
      | nil => exact absurd rfl h
      | cons d ds => simp [build_chart_1m, hsig, renderedNonempty1m]
    · obtain ⟨o, heq, _, hne⟩ := build_chart_1m_spec df ev sig h hsig
      rw [heq]
      simpa [renderedNonempty1m, List.isEmpty_iff] using hne

/-- C8, witness: on the concrete two-candle series and trade-only event
(whose 1-minute window excludes every candle, forcing the full-series
fallback there), all four builders render a non-empty slice. -/
theorem c8_fallback_nonempty_witness :
    renderedNonempty (build_chart dfDt evTradeOnly).1 = true ∧
    renderedNonempty (build_chart_5m dfDt evTradeOnly).1 = true ∧
    renderedNonempty1h (build_chart_1h dfDt evTradeOnly) = true ∧
    renderedNonempty1m (build_chart_1m dfDt evTradeOnly) = true :=
  c8_fallback_nonempty dfDt evTradeOnly (by decide)

/-! ### Claim C9 -/

theorem map_convertRow_id (l : List CandleIn)
    (hl : ∀ c ∈ l, convertRow c = c) : l.map convertRow = l := by
  induction l with
  | nil => rfl
  | cons x xs ih =>
    rw [List.map_cons, hl x (List.mem_cons_self x xs),
      ih (fun c hc => hl c (List.mem_cons_of_mem x hc))]

/-- C9, counterexample.  chart_builder.py `build_chart` assigns the
converted `ts_event` column in place on the caller's DataFrame (line 111,
no copy), so a caller passing a frame whose `ts_event` column still holds
raw strings gets its frame modified — the render is not free of effects on
its inputs. -/
theorem c9_counterexample : (build_chart dfRaw {}).2 ≠ dfRaw := by
  decide

/-- C9, amended.  chart_builder_5m.py `build_chart` copies before
converting and leaves the caller's frame unchanged for every input; the
chart_builder.py copy leaves it unchanged only when the `ts_event` column
is already datetime (as it is when called from app.py, which converts
before the call).  Neither builder writes to the event record. -/
theorem c9_amended (df : List CandleIn) (ev : EventRecord) :
    (build_chart_5m df ev).2 = df ∧
    ((∀ c ∈ df, convertRow c = c) → (build_chart df ev).2 = df) := by
  constructor
  · cases df with
    | nil => rfl
    | cons d ds => rfl
  · intro hconv
    cases df with
    | nil => rfl
    | cons d ds =>
      show (d :: ds).map convertRow = d :: ds
      exact map_convertRow_id (d :: ds) hconv

/-- C9, witness for the amended theorem on an already-converted frame. -/
theorem c9_amended_witness :
    (build_chart_5m dfDt evTradeOnly).2 = dfDt ∧
    (build_chart dfDt evTradeOnly).2 = dfDt :=
  ⟨(c9_amended dfDt evTradeOnly).1,
   (c9_amended dfDt evTradeOnly).2 (by decide)⟩

/-! ### Claim C10 -/

/-- C10.  The hourly and 1-minute builders read the trade list only
through `_get_trade`, i.e. `trade_signals[0]`: with the same first signal,
any change to (or removal of) the later signals leaves both views' output
— slice, window, lines, markers, axis range — unchanged. -/
theorem c10_first_trade_only (df : List CandleIn) (ev : EventRecord)
    (sig : TradeSignal) (rest rest2 : List TradeSignal) :
    build_chart_1h df { ev with trade_signals := sig :: rest } =
      build_chart_1h df { ev with trade_signals := sig :: rest2 } ∧
    build_chart_1m df { ev with trade_signals := sig :: rest } =
      build_chart_1m df { ev with trade_signals := sig :: rest2 } := by
  cases df with
  | nil => exact ⟨rfl, rfl⟩
  | cons d ds => exact ⟨rfl, rfl⟩

end SLEV

